import Mathlib

set_option maxRecDepth 4000

/-!
# Verification of the `balance` budget-cycle resolver and statement aggregator

Shallow embedding of the core logic of the `balance` personal finance
tracker (`app.py`, `models.py`): the billing-cycle resolver
`get_current_cycle_start`, the statement/home-view transaction queries and
sums, and the small database state machine behind the routes
(`register`, `set_budget`, `add_transaction`, `update_profile`,
`index`, `download_statement`).

Dates are modelled as records of integers (Python `datetime.date`,
years restricted to `datetime.MINYEAR = 1 .. MAXYEAR = 9999`); the
fallible `datetime.date(y, m, d)` constructor is modelled by `mkDate?`
returning `Option Date` (`none` = Python raises `ValueError`), and the
fallible `date ± timedelta` arithmetic by `prevDay`/`nextDay`/`addDays`
returning `Option Date` (`none` = Python raises `OverflowError` outside
`date.min .. date.max`), so `get_current_cycle_start` returns
`Option Date` with `none` for any uncaught exception.
Monetary amounts (Python floats) are modelled as rationals; the concrete
values appearing in the spec (100.50, 40.00, 1000) are exactly
representable in binary floating point and their sums/differences are
exact, so the rational model agrees with the float computation there.
-/

/-- Python `calendar.isleap(y)`: divisible by 4 and not by 100 unless by 400. -/
def isLeap (y : Int) : Bool :=
  y % 4 == 0 && (y % 100 != 0 || y % 400 == 0)

/-- Number of days in month `m` of year `y`
(Python `calendar.monthrange(y, m)[1]`), for `m` in 1..12. -/
def daysInMonth (y m : Int) : Int :=
  if m = 2 then (if isLeap y then 29 else 28)
  else if m = 4 ∨ m = 6 ∨ m = 9 ∨ m = 11 then 30
  else 31

/-- A calendar date (`datetime.date`), fields as Python ints. -/
structure Date where
  year : Int
  month : Int
  day : Int
deriving DecidableEq, Repr

/-- The validity invariant `datetime.date` enforces on construction,
year range `MINYEAR = 1 .. MAXYEAR = 9999` included. -/
def Date.Valid (dt : Date) : Prop :=
  1 ≤ dt.year ∧ dt.year ≤ 9999 ∧ 1 ≤ dt.month ∧ dt.month ≤ 12 ∧
    1 ≤ dt.day ∧ dt.day ≤ daysInMonth dt.year dt.month

instance (dt : Date) : Decidable dt.Valid := by
  unfold Date.Valid; exact inferInstance

/-- `datetime.date(y, m, d)`: `some` on valid input (year 1..9999
included), `none` where Python raises `ValueError`. -/
def mkDate? (y m d : Int) : Option Date :=
  if 1 ≤ y ∧ y ≤ 9999 ∧ 1 ≤ m ∧ m ≤ 12 ∧ 1 ≤ d ∧ d ≤ daysInMonth y m then
    some ⟨y, m, d⟩
  else none

/-- Strict chronological order on dates (year, then month, then day). -/
def Date.lt (a b : Date) : Prop :=
  a.year < b.year ∨ (a.year = b.year ∧
    (a.month < b.month ∨ (a.month = b.month ∧ a.day < b.day)))

/-- Chronological order on dates. -/
def Date.le (a b : Date) : Prop :=
  Date.lt a b ∨ a = b

instance (a b : Date) : Decidable (Date.lt a b) := by
  unfold Date.lt; exact inferInstance

instance (a b : Date) : Decidable (Date.le a b) := by
  unfold Date.le; exact inferInstance

/-- `dt - timedelta(days=1)` for a valid date: `none` where Python raises
`OverflowError` (stepping below `date.min = date(1, 1, 1)`). -/
def prevDay (dt : Date) : Option Date :=
  if 1 < dt.day then some ⟨dt.year, dt.month, dt.day - 1⟩
  else if 1 < dt.month then
    some ⟨dt.year, dt.month - 1, daysInMonth dt.year (dt.month - 1)⟩
  else if 1 < dt.year then some ⟨dt.year - 1, 12, 31⟩
  else none

/-- `dt + timedelta(days=1)` for a valid date: `none` where Python raises
`OverflowError` (stepping past `date.max = date(9999, 12, 31)`). -/
def nextDay (dt : Date) : Option Date :=
  if dt.day < daysInMonth dt.year dt.month then
    some ⟨dt.year, dt.month, dt.day + 1⟩
  else if dt.month < 12 then some ⟨dt.year, dt.month + 1, 1⟩
  else if dt.year < 9999 then some ⟨dt.year + 1, 1, 1⟩
  else none

/-- `dt + timedelta(days=n)` for a valid date: `none` where Python raises
`OverflowError` (the result would lie past `date.max`). -/
def addDays (dt : Date) : Nat → Option Date
  | 0 => some dt
  | n + 1 =>
    match nextDay dt with
    | none => none
    | some e => addDays e n

/-- `get_actual_day(y, m, d)`, the inner helper of `get_current_cycle_start`
(app.py lines 48-50): clamp the anchor day to the month's length. -/
def get_actual_day (y m d : Int) : Int :=
  min d (daysInMonth y m)

/-- `get_current_cycle_start(day, today)` (app.py lines 42-66) with the
reference date supplied explicitly (the `today=None` default is modelled
separately by `get_current_cycle_start_entry`).  Returns `none` when a
`datetime.date` construction inside would raise. -/
def get_current_cycle_start (day : Int) (today : Date) : Option Date :=
  let current_target_day := get_actual_day today.year today.month day
  if current_target_day ≤ today.day then
    mkDate? today.year today.month current_target_day
  else
    match mkDate? today.year today.month 1 with
    | none => none
    | some first_of_this_month =>
      match prevDay first_of_this_month with
      | none => none
      | some last_of_prev_month =>
        mkDate? last_of_prev_month.year last_of_prev_month.month
          (get_actual_day last_of_prev_month.year last_of_prev_month.month day)

/-- The full entry point of `get_current_cycle_start` including its
`today=None` default (app.py lines 42-44): when no reference date is
passed, the system clock (`datetime.date.today()`, here the explicit
`systemToday` parameter) is consulted. -/
def get_current_cycle_start_entry (systemToday : Date) (day : Int)
    (todayArg : Option Date) : Option Date :=
  let today := match todayArg with
    | none => systemToday
    | some t => t
  get_current_cycle_start day today

/-- A row of the `Transaction` table (models.py lines 27-33); `time` is an
opaque ordering key (seconds within the day), `amount` a Python float
modelled as a rational. -/
structure TransactionRec where
  user_id : Int
  date : Date
  time : Int
  amount : ℚ
  description : String
deriving DecidableEq

/-- A row of the `MonthlyBudget` table (models.py lines 18-24). -/
structure BudgetRec where
  user_id : Int
  month_start_date : Date
  salary_credited : ℚ
deriving DecidableEq

/-- A row of the `User` table (models.py lines 9-15); the password hash is
irrelevant to every claim and omitted. -/
structure UserRec where
  id : Int
  username : String
  salary_credit_day : Int
deriving DecidableEq

/-- The database state: the three tables. -/
structure DBState where
  users : List UserRec
  budgets : List BudgetRec
  transactions : List TransactionRec
deriving DecidableEq

/-- The transaction query of the home view (app.py lines 81-87):
`Transaction.user_id == uid AND Transaction.date >= cycle_start`
(the `order_by` only permutes the rows and is irrelevant to the
membership and sum claims). -/
def index_transactions (txs : List TransactionRec) (uid : Int)
    (cycle_start : Date) : List TransactionRec :=
  txs.filter (fun t => decide (t.user_id = uid ∧ Date.le cycle_start t.date))

/-- The transaction query of the statement download (app.py lines 249-257):
`user_id == uid AND date >= cycle_start AND date < next_cycle_start`. -/
def statement_transactions (txs : List TransactionRec) (uid : Int)
    (cycle_start next_cycle_start : Date) : List TransactionRec :=
  txs.filter (fun t =>
    decide (t.user_id = uid ∧ Date.le cycle_start t.date ∧
      Date.lt t.date next_cycle_start))

/-- `total_spent = sum(t.amount for t in transactions)`
(app.py lines 89 and 259). -/
def total_spent (txs : List TransactionRec) : ℚ :=
  (txs.map TransactionRec.amount).sum

/-- `remaining_balance = <allocated credit> - total_spent`
(app.py lines 90 and 260). -/
def remaining_balance (salary_credited : ℚ) (txs : List TransactionRec) : ℚ :=
  salary_credited - total_spent txs

/-- The budget lookup shared by `index` (app.py lines 73-75) and
`download_statement` (app.py lines 235-237):
`MonthlyBudget.query.filter_by(user_id=uid, month_start_date=cycle_start).first()`. -/
def find_budget (budgets : List BudgetRec) (uid : Int) (cycle_start : Date) :
    Option BudgetRec :=
  budgets.find? (fun b => decide (b.user_id = uid ∧ b.month_start_date = cycle_start))

/-- The budget lookup of `download_statement` with explicit year/month args
(app.py lines 222-226): match on the year and month extracted from
`month_start_date`. -/
def find_budget_by_year_month (budgets : List BudgetRec) (uid : Int)
    (year month : Int) : Option BudgetRec :=
  budgets.find? (fun b => decide (b.user_id = uid ∧
    b.month_start_date.year = year ∧ b.month_start_date.month = month))

/-- Outcome of the `index` route (app.py lines 69-99). -/
inductive IndexOutcome where
  | redirect_set_budget
  | page (budget : BudgetRec) (transactions : List TransactionRec)
      (tot rem : ℚ) (cycle_start : Date)
deriving DecidableEq

/-- The `index` route (app.py lines 69-99) for the authenticated user `u`;
`today` is the system clock consulted by `get_current_cycle_start`'s
default argument. `none` models an uncaught exception. -/
def index_route (today : Date) (db : DBState) (u : UserRec) :
    Option IndexOutcome :=
  match get_current_cycle_start_entry today u.salary_credit_day none with
  | none => none
  | some cycle_start =>
    match find_budget db.budgets u.id cycle_start with
    | none => some .redirect_set_budget
    | some budget =>
      let txs := index_transactions db.transactions u.id cycle_start
      some (.page budget txs (total_spent txs)
        (remaining_balance budget.salary_credited txs) cycle_start)

/-- Outcome of the `download_statement` route (app.py lines 213-392). -/
inductive StatementOutcome where
  | redirect_index
  | pdf (cycle_start : Date) (budget : BudgetRec)
      (transactions : List TransactionRec) (tot rem : ℚ)
deriving DecidableEq

/-- The cycle-end computation and statement body of `download_statement`
(app.py lines 243-260): the next cycle start is the resolver applied to
`cycle_start + timedelta(days=32)`; that addition itself raises
`OverflowError` (`none`) past `date.max`. -/
def statement_body (today : Date) (db : DBState) (u : UserRec)
    (cycle_start : Date) (budget : BudgetRec) : Option StatementOutcome :=
  match addDays cycle_start 32 with
  | none => none
  | some next_month_date =>
    match get_current_cycle_start_entry today u.salary_credit_day
        (some next_month_date) with
    | none => none
    | some next_cycle_start =>
      let txs := statement_transactions db.transactions u.id cycle_start
        next_cycle_start
      some (.pdf cycle_start budget txs (total_spent txs)
        (remaining_balance budget.salary_credited txs))

/-- Python truthiness of `request.args.get(..., type=int)`: both a missing
argument (`None`) and the integer 0 are falsy. -/
def truthyInt : Option Int → Bool
  | none => false
  | some n => decide (n ≠ 0)

/-- The `download_statement` route (app.py lines 213-260, rendering
omitted): when `year` and `month` are both truthy (`if year and month:` —
present and non-zero), the budget is looked up by calendar year/month of
its start date, otherwise by the resolved current cycle start; a missing
budget flashes a message and redirects to `index`. -/
def download_statement (today : Date) (db : DBState) (u : UserRec)
    (yearArg monthArg : Option Int) : Option StatementOutcome :=
  if truthyInt yearArg && truthyInt monthArg then
    match find_budget_by_year_month db.budgets u.id (yearArg.getD 0)
        (monthArg.getD 0) with
    | none => some .redirect_index
    | some budget => statement_body today db u budget.month_start_date budget
  else
    match get_current_cycle_start_entry today u.salary_credit_day none with
    | none => none
    | some cycle_start =>
      match find_budget db.budgets u.id cycle_start with
      | none => some .redirect_index
      | some budget => statement_body today db u cycle_start budget

/-- The `register` route (app.py lines 115-145) for a fresh autoincrement
id `newId`: reject duplicate usernames; otherwise insert the user, then
resolve the cycle start for the submitted anchor day and insert the
initial budget.  If the resolver raises (`none`), the user row is already
committed but no budget row is written. -/
def register (today : Date) (db : DBState) (username : String) (salary : ℚ)
    (billing_cycle : Int) (newId : Int) : DBState :=
  if db.users.any (fun u => decide (u.username = username)) then db
  else
    let db1 : DBState := { db with users := ⟨newId, username, billing_cycle⟩ :: db.users }
    match get_current_cycle_start_entry today billing_cycle none with
    | none => db1
    | some cycle_start =>
      { db1 with budgets := ⟨newId, cycle_start, salary⟩ :: db1.budgets }

/-- The `set_budget` route, POST branch (app.py lines 148-161): resolve the
current cycle start for the user's anchor day and insert a new budget row
— with no check whether one already exists for that (user, cycle start). -/
def set_budget (today : Date) (db : DBState) (u : UserRec) (salary : ℚ) :
    DBState :=
  match get_current_cycle_start_entry today u.salary_credit_day none with
  | none => db
  | some cycle_start =>
    { db with budgets := ⟨u.id, cycle_start, salary⟩ :: db.budgets }

/-- The `add_transaction` route (app.py lines 165-180): insert a
transaction row dated today; the budget table is untouched. -/
def add_transaction (today : Date) (timeNow : Int) (db : DBState)
    (u : UserRec) (amount : ℚ) (description : String) : DBState :=
  { db with transactions := ⟨u.id, today, timeNow, amount, description⟩ :: db.transactions }

/-- The `update_profile` route (app.py lines 183-191): update the user's
anchor day; the budget table is untouched. -/
def update_profile (db : DBState) (u : UserRec) (billing_cycle : Int) :
    DBState :=
  { db with users := db.users.map (fun v =>
      if v.id = u.id then { v with salary_credit_day := billing_cycle } else v) }

/-- The invariant of claim C6: at most one `MonthlyBudget` row per
(user id, cycle start date). -/
def BudgetInv (db : DBState) : Prop :=
  (db.budgets.map (fun b => (b.user_id, b.month_start_date))).Nodup

instance (db : DBState) : Decidable (BudgetInv db) := by
  unfold BudgetInv; exact inferInstance

/-- The successor month of a (year, month) pair. -/
def monthSucc : Int × Int → Int × Int
  | (y, m) => if m = 12 then (y + 1, 1) else (y, m + 1)

/-- Modelled from the spec (§4.2): the start of the cycle immediately
following a cycle start `s` for anchor day `d` — the following month,
with the anchor clamped to that month's length.  This is the spec-side
yardstick the code's 32-day computation is compared against in C3. -/
def nextCycleSpec (d : Int) (s : Date) : Date :=
  let ym := monthSucc (s.year, s.month)
  ⟨ym.1, ym.2, min d (daysInMonth ym.1 ym.2)⟩

/-! ## Helper lemmas about the date model -/

theorem daysInMonth_bounds (y m : Int) :
    28 ≤ daysInMonth y m ∧ daysInMonth y m ≤ 31 := by
  unfold daysInMonth
  split_ifs <;> omega

theorem daysInMonth_def_12 (y : Int) : daysInMonth y 12 = 31 := by
  unfold daysInMonth
  norm_num

theorem daysInMonth_def_1 (y : Int) : daysInMonth y 1 = 31 := by
  unfold daysInMonth
  norm_num

theorem mkDate?_pos {y m d : Int} (hy1 : 1 ≤ y) (hy2 : y ≤ 9999) (h1 : 1 ≤ m)
    (h2 : m ≤ 12) (h3 : 1 ≤ d) (h4 : d ≤ daysInMonth y m) :
    mkDate? y m d = some ⟨y, m, d⟩ := by
  unfold mkDate?
  rw [if_pos ⟨hy1, hy2, h1, h2, h3, h4⟩]

theorem Date.le_def (a b : Date) :
    Date.le a b ↔ (a.year < b.year ∨ (a.year = b.year ∧
      (a.month < b.month ∨ (a.month = b.month ∧ a.day ≤ b.day)))) := by
  obtain ⟨ay, am, ad⟩ := a
  obtain ⟨cy, cm, cd⟩ := b
  unfold Date.le Date.lt
  simp only [Date.mk.injEq]
  omega

theorem Date.lt_def (a b : Date) :
    Date.lt a b ↔ (a.year < b.year ∨ (a.year = b.year ∧
      (a.month < b.month ∨ (a.month = b.month ∧ a.day < b.day)))) := Iff.rfl

/-- Closed-form characterization of `get_current_cycle_start` on a valid
reference date with a positive anchor day: either the current month's
clamped anchor (already reached), or the previous month's clamped anchor,
December of the previous year included — except in January of year 1,
where `date(1, 1, 1) - timedelta(days=1)` underflows `date.min` and the
resolver raises `OverflowError` (`none`). -/
theorem gccs_eq (d : Int) (t : Date) (hv : t.Valid) (hd : 1 ≤ d) :
    get_current_cycle_start d t =
      if min d (daysInMonth t.year t.month) ≤ t.day then
        some ⟨t.year, t.month, min d (daysInMonth t.year t.month)⟩
      else if 1 < t.month then
        some ⟨t.year, t.month - 1, min d (daysInMonth t.year (t.month - 1))⟩
      else if 1 < t.year then
        some ⟨t.year - 1, 12, min d 31⟩
      else none := by
  obtain ⟨ty, tm, td⟩ := t
  obtain ⟨hy1, hy2, hm1, hm2, hday1, hday2⟩ := hv
  dsimp only at hy1 hy2 hm1 hm2 hday1 hday2
  have hb := daysInMonth_bounds ty tm
  unfold get_current_cycle_start get_actual_day
  dsimp only
  by_cases h : min d (daysInMonth ty tm) ≤ td
  · rw [if_pos h, if_pos h, mkDate?_pos hy1 hy2 hm1 hm2 (by omega) (by omega)]
  · rw [if_neg h, if_neg h, mkDate?_pos hy1 hy2 hm1 hm2 (by omega) (by omega)]
    unfold prevDay
    dsimp only
    rw [if_neg (by norm_num)]
    by_cases hm : 1 < tm
    · have hb' := daysInMonth_bounds ty (tm - 1)
      rw [if_pos hm, if_pos hm]
      dsimp only
      exact mkDate?_pos hy1 hy2 (by omega) (by omega) (by omega) (by omega)
    · rw [if_neg hm, if_neg hm]
      by_cases hy : 1 < ty
      · have h12 := daysInMonth_def_12 (ty - 1)
        rw [if_pos hy, if_pos hy]
        dsimp only
        rw [h12]
        exact mkDate?_pos (by omega) (by omega) (by omega) (by omega) (by omega)
          (by omega)
      · rw [if_neg hy, if_neg hy]

/-- Whenever the resolver returns a date at all (for a valid reference
date and a positive anchor), that date is valid, not after the reference
date, and its day-of-month is the anchor clamped to the result month's
length. -/
theorem gccs_some_spec (d : Int) (t r : Date) (hv : t.Valid) (hd : 1 ≤ d)
    (hr : get_current_cycle_start d t = some r) :
    r.Valid ∧ r.day = min d (daysInMonth r.year r.month) ∧ Date.le r t := by
  have hv' := hv
  obtain ⟨ty, tm, td⟩ := t
  obtain ⟨hy1, hy2, hm1, hm2, hday1, hday2⟩ := hv
  dsimp only at hy1 hy2 hm1 hm2 hday1 hday2
  have hb := daysInMonth_bounds ty tm
  rw [gccs_eq d _ hv' hd] at hr
  dsimp only at hr
  split_ifs at hr with h1 h2 h3
  · simp only [Option.some.injEq] at hr
    subst hr
    refine ⟨?_, ?_, ?_⟩
    · unfold Date.Valid
      dsimp only
      omega
    · dsimp only
    · rw [Date.le_def]
      dsimp only
      omega
  · simp only [Option.some.injEq] at hr
    subst hr
    have hb' := daysInMonth_bounds ty (tm - 1)
    refine ⟨?_, ?_, ?_⟩
    · unfold Date.Valid
      dsimp only
      omega
    · dsimp only
    · rw [Date.le_def]
      dsimp only
      omega
  · simp only [Option.some.injEq] at hr
    subst hr
    have h12 := daysInMonth_def_12 (ty - 1)
    refine ⟨?_, ?_, ?_⟩
    · unfold Date.Valid
      dsimp only
      rw [h12]
      omega
    · dsimp only
      rw [h12]
    · rw [Date.le_def]
      dsimp only
      omega

/-- For a valid reference date and a positive anchor, the resolver only
fails on January of year 1 below the clamped anchor (the underflow of
`date.min - 1 day`); everywhere else it returns a date. -/
theorem gccs_success (d : Int) (t : Date) (hv : t.Valid) (hd : 1 ≤ d)
    (hne : ¬(t.year = 1 ∧ t.month = 1 ∧ t.day < min d 31)) :
    ∃ r, get_current_cycle_start d t = some r := by
  have hv' := hv
  obtain ⟨ty, tm, td⟩ := t
  obtain ⟨hy1, hy2, hm1, hm2, hday1, hday2⟩ := hv
  dsimp only at hy1 hy2 hm1 hm2 hday1 hday2 hne
  have hb := daysInMonth_bounds ty tm
  rw [gccs_eq d _ hv' hd]
  dsimp only
  split_ifs with h1 h2 h3
  · exact ⟨_, rfl⟩
  · exact ⟨_, rfl⟩
  · exact ⟨_, rfl⟩
  · have htm : tm = 1 := by omega
    subst htm
    rw [daysInMonth_def_1] at h1
    exact absurd ⟨by omega, rfl, by omega⟩ hne

/-- In January of year 1, at a day below the clamped anchor, the resolver
raises `OverflowError` (the inner `date(1, 1, 1) - timedelta(days=1)`
underflows `date.min`). -/
theorem gccs_overflow (d : Int) (t : Date) (hv : t.Valid) (hd : 1 ≤ d)
    (h1 : t.year = 1) (h2 : t.month = 1) (h3 : t.day < min d 31) :
    get_current_cycle_start d t = none := by
  have hv' := hv
  obtain ⟨ty, tm, td⟩ := t
  dsimp only at h1 h2 h3
  subst h1
  subst h2
  rw [gccs_eq d _ hv' hd]
  dsimp only
  rw [daysInMonth_def_1]
  have c1 : ¬ min d 31 ≤ td := by omega
  have c2 : ¬ (1 : Int) < 1 := by norm_num
  rw [if_neg c1, if_neg c2, if_neg c2]

/-- A valid date whose day-of-month equals the clamped anchor is a fixed
point of the resolver. -/
theorem gccs_fixed (d : Int) (r : Date) (hv : r.Valid) (hd : 1 ≤ d)
    (h : r.day = min d (daysInMonth r.year r.month)) :
    get_current_cycle_start d r = some r := by
  have hv' := hv
  obtain ⟨ry, rm, rd⟩ := r
  dsimp only at h
  rw [gccs_eq d _ hv' hd]
  dsimp only
  have hc : min d (daysInMonth ry rm) ≤ rd := by omega
  rw [if_pos hc]
  simp only [Option.some.injEq, Date.mk.injEq, true_and]
  omega

/-- Conversely, a fixed point of the resolver has the clamped anchor as its
day-of-month. -/
theorem gccs_fixed_day (d : Int) (s : Date) (hv : s.Valid) (hd : 1 ≤ d)
    (hfix : get_current_cycle_start d s = some s) :
    s.day = min d (daysInMonth s.year s.month) := by
  have hv' := hv
  obtain ⟨sy, sm, sd⟩ := s
  rw [gccs_eq d _ hv' hd] at hfix
  dsimp only at hfix ⊢
  split_ifs at hfix with h1 h2 h3
  · simp only [Option.some.injEq, Date.mk.injEq] at hfix
    omega
  · simp only [Option.some.injEq, Date.mk.injEq] at hfix
    omega
  · simp only [Option.some.injEq, Date.mk.injEq] at hfix
    omega

/-! ## Claim theorems -/

/-- C1: for every anchor day `d` in 1..31 and every valid reference date,
whenever `get_current_cycle_start` returns a date (it instead raises
`OverflowError` in January of year 1 below the clamped anchor), the
day-of-month of the returned date equals
`min d (days in the returned date's month)` — anchors like 31 clamp to
28/29/30 in shorter months. -/
theorem cycle_start_day_clamped (d : Int) (t : Date) (hv : t.Valid)
    (hd1 : 1 ≤ d) (_hd2 : d ≤ 31) :
    ∀ r, get_current_cycle_start d t = some r →
      r.day = min d (daysInMonth r.year r.month) := by
  intro r hr
  exact (gccs_some_spec d t r hv hd1 hr).2.1

/-- Witness for C1 at the spec's clamp example: anchor 31, reference
2024-02-15 (the result is 2024-01-31, whose day is `min 31 31`). -/
theorem cycle_start_day_clamped_witness :
    ∃ r, get_current_cycle_start 31 ⟨2024, 2, 15⟩ = some r ∧
      r.day = min 31 (daysInMonth r.year r.month) :=
  ⟨⟨2024, 1, 31⟩, by decide,
    cycle_start_day_clamped 31 ⟨2024, 2, 15⟩ (by decide) (by decide) (by decide)
      ⟨2024, 1, 31⟩ (by decide)⟩

/-- Counterexample to C2 as stated: at the valid reference date 0001-01-05
with anchor 8, the cycle has not yet begun (day 5 < clamped anchor 8) and
today is in January, so the claim asserts the resolver returns December of
the previous year; instead the code's `date(1, 1, 1) - timedelta(days=1)`
underflows `date.min` and raises `OverflowError` — no date is returned. -/
theorem cycle_start_branches_cex :
    (⟨1, 1, 5⟩ : Date).Valid ∧
    (⟨1, 1, 5⟩ : Date).day < min 8 (daysInMonth 1 1) ∧
    (⟨1, 1, 5⟩ : Date).month = 1 ∧
    get_current_cycle_start 8 ⟨1, 1, 5⟩ = none := by decide

/-- C2 (amended): if `today.day ≥ min d (days in today's month)` the
resolver returns `(today.year, today.month, clamped day)`; otherwise it
returns the previous calendar month's date with that month's own clamped
target day, rolling back to December of the previous year when today is in
January of a year ≥ 2 — in January of year 1 the
`date(1, 1, 1) - timedelta(days=1)` computation overflows and the resolver
raises instead; concretely `resolve 8 2024-03-05 = 2024-02-08` and
`resolve 8 2024-03-08 = 2024-03-08`. -/
theorem cycle_start_branches (d : Int) (t : Date) (hv : t.Valid)
    (hd1 : 1 ≤ d) (_hd2 : d ≤ 31) :
    (min d (daysInMonth t.year t.month) ≤ t.day →
      get_current_cycle_start d t =
        some ⟨t.year, t.month, min d (daysInMonth t.year t.month)⟩) ∧
    (t.day < min d (daysInMonth t.year t.month) → 1 < t.month →
      get_current_cycle_start d t =
        some ⟨t.year, t.month - 1, min d (daysInMonth t.year (t.month - 1))⟩) ∧
    (t.day < min d (daysInMonth t.year t.month) → t.month = 1 → 1 < t.year →
      get_current_cycle_start d t =
        some ⟨t.year - 1, 12, min d (daysInMonth (t.year - 1) 12)⟩) ∧
    (t.day < min d (daysInMonth t.year t.month) → t.month = 1 → t.year = 1 →
      get_current_cycle_start d t = none) ∧
    get_current_cycle_start 8 ⟨2024, 3, 5⟩ = some ⟨2024, 2, 8⟩ ∧
    get_current_cycle_start 8 ⟨2024, 3, 8⟩ = some ⟨2024, 3, 8⟩ := by
  rw [gccs_eq d t hv hd1]
  refine ⟨?_, ?_, ?_, ?_, by decide, by decide⟩
  · intro h
    rw [if_pos h]
  · intro h1 h2
    have hna : ¬ min d (daysInMonth t.year t.month) ≤ t.day := by omega
    rw [if_neg hna, if_pos h2]
  · intro h1 h2 h3
    have hna : ¬ min d (daysInMonth t.year t.month) ≤ t.day := by omega
    have hna2 : ¬ 1 < t.month := by omega
    rw [if_neg hna, if_neg hna2, if_pos h3, daysInMonth_def_12]
  · intro h1 h2 h3
    have hna : ¬ min d (daysInMonth t.year t.month) ≤ t.day := by omega
    have hna2 : ¬ 1 < t.month := by omega
    have hna3 : ¬ 1 < t.year := by omega
    rw [if_neg hna, if_neg hna2, if_neg hna3]

/-- Witness for C2 (amended): anchor 8 on 2024-01-05 rolls back across the
year boundary to December 2023. -/
theorem cycle_start_branches_witness :
    get_current_cycle_start 8 ⟨2024, 1, 5⟩ =
      some ⟨2024 - 1, 12, min 8 (daysInMonth (2024 - 1) 12)⟩ :=
  (cycle_start_branches 8 ⟨2024, 1, 5⟩ (by decide) (by decide) (by decide)).2.2.1
    (by decide) (by decide) (by decide)

/-- C8: the resolver is idempotent — feeding its own result back in as the
reference date returns the same date (and where the resolver raises, there
is no result to feed back, so idempotence holds trivially). -/
theorem cycle_start_idempotent (d : Int) (t : Date) (hv : t.Valid)
    (hd1 : 1 ≤ d) (_hd2 : d ≤ 31) :
    (get_current_cycle_start d t).bind (get_current_cycle_start d) =
      get_current_cycle_start d t := by
  cases hr : get_current_cycle_start d t with
  | none => rfl
  | some r =>
    obtain ⟨hrv, hclamp, _⟩ := gccs_some_spec d t r hv hd1 hr
    show get_current_cycle_start d r = some r
    exact gccs_fixed d r hrv hd1 hclamp

/-- Witness for C8 at anchor 8, reference 2024-03-05. -/
theorem cycle_start_idempotent_witness :
    (get_current_cycle_start 8 ⟨2024, 3, 5⟩).bind (get_current_cycle_start 8) =
      get_current_cycle_start 8 ⟨2024, 3, 5⟩ :=
  cycle_start_idempotent 8 ⟨2024, 3, 5⟩ (by decide) (by decide) (by decide)

/-- C9: the resolver reads the system clock only through its `today=None`
default; with the reference date supplied, its result is independent of
the clock, so any two invocations agree regardless of when they run. -/
theorem cycle_start_clock_independent (clock1 clock2 : Date) (d : Int)
    (t : Date) :
    get_current_cycle_start_entry clock1 d (some t) =
      get_current_cycle_start_entry clock2 d (some t) := rfl

/-- Counterexample to C10 as stated: at the valid reference date
0001-01-05 with anchor 8 ≥ 1 the resolver does not return a date — the
inner `date(1, 1, 1) - timedelta(days=1)` underflows `date.min` and
raises `OverflowError`. -/
theorem cycle_start_safety_cex :
    (⟨1, 1, 5⟩ : Date).Valid ∧ (1 : Int) ≤ 8 ∧
    get_current_cycle_start 8 ⟨1, 1, 5⟩ = none := by decide

/-- C10 (amended): for an anchor day `d ≥ 1` and a valid reference date
the resolver returns a valid date no later than the reference date —
except in January of year 1 with day-of-month below the clamped anchor,
where the `date(1, 1, 1) - timedelta(days=1)` step underflows `date.min`
and raises `OverflowError`; for `d ≤ 0` the `datetime.date` construction
fails, so `d ≥ 1` remains a genuine precondition. -/
theorem cycle_start_safety (d : Int) (t : Date) (hv : t.Valid) :
    (1 ≤ d → ¬(t.year = 1 ∧ t.month = 1 ∧ t.day < min d 31) →
      ∃ r, get_current_cycle_start d t = some r ∧ r.Valid ∧ Date.le r t) ∧
    (1 ≤ d → t.year = 1 → t.month = 1 → t.day < min d 31 →
      get_current_cycle_start d t = none) ∧
    (d ≤ 0 → get_current_cycle_start d t = none) := by
  refine ⟨?_, ?_, ?_⟩
  · intro hd hne
    obtain ⟨r, hr⟩ := gccs_success d t hv hd hne
    obtain ⟨hrv, _, hle⟩ := gccs_some_spec d t r hv hd hr
    exact ⟨r, hr, hrv, hle⟩
  · intro hd h1 h2 h3
    exact gccs_overflow d t hv hd h1 h2 h3
  · intro hd
    obtain ⟨ty, tm, td⟩ := t
    obtain ⟨hy1, hy2, hm1, hm2, hday1, hday2⟩ := hv
    dsimp only at hy1 hy2 hm1 hm2 hday1 hday2
    have hb := daysInMonth_bounds ty tm
    unfold get_current_cycle_start get_actual_day mkDate?
    dsimp only
    have hc : min d (daysInMonth ty tm) ≤ td := by omega
    rw [if_pos hc]
    have hno : ¬ (1 ≤ ty ∧ ty ≤ 9999 ∧ 1 ≤ tm ∧ tm ≤ 12 ∧
        1 ≤ min d (daysInMonth ty tm) ∧
        min d (daysInMonth ty tm) ≤ daysInMonth ty tm) := by omega
    rw [if_neg hno]

/-- Witness for C10 (amended): anchor 8 succeeds on 2024-03-05 with a
valid result not after the reference date; on 0001-01-05 it raises; anchor
0 raises. -/
theorem cycle_start_safety_witness :
    (∃ r, get_current_cycle_start 8 ⟨2024, 3, 5⟩ = some r ∧ r.Valid ∧
      Date.le r ⟨2024, 3, 5⟩) ∧
    get_current_cycle_start 8 ⟨1, 1, 5⟩ = none ∧
    get_current_cycle_start 0 ⟨2024, 3, 5⟩ = none :=
  ⟨(cycle_start_safety 8 ⟨2024, 3, 5⟩ (by decide)).1 (by decide) (by decide),
   (cycle_start_safety 8 ⟨1, 1, 5⟩ (by decide)).2.1 (by decide) (by decide)
     (by decide) (by decide),
   (cycle_start_safety 0 ⟨2024, 3, 5⟩ (by decide)).2.2 (by decide)⟩

theorem Date.lt_irrefl (a : Date) : ¬ Date.lt a a := by
  rw [Date.lt_def]
  omega

theorem Date.le_refl (a : Date) : Date.le a a := Or.inr rfl

/-- C4: with an explicit end, the statement aggregation contains exactly
the user's transactions with `cycle_start ≤ date < next_cycle_start` —
a transaction dated exactly on the next cycle's start is excluded from the
current statement and (when in range) included in the next — while the
open/current cycle view contains exactly those with `date ≥ cycle_start`,
unbounded above. -/
theorem statement_membership (txs : List TransactionRec) (uid : Int)
    (cs ncs ncs2 : Date) (t : TransactionRec) :
    (t ∈ statement_transactions txs uid cs ncs ↔
      t ∈ txs ∧ t.user_id = uid ∧ Date.le cs t.date ∧ Date.lt t.date ncs) ∧
    (t ∈ index_transactions txs uid cs ↔
      t ∈ txs ∧ t.user_id = uid ∧ Date.le cs t.date) ∧
    (t.date = ncs → t ∉ statement_transactions txs uid cs ncs) ∧
    (t.date = ncs → t ∈ txs → t.user_id = uid → Date.lt t.date ncs2 →
      t ∈ statement_transactions txs uid ncs ncs2) := by
  have hstmt : ∀ a b : Date, t ∈ statement_transactions txs uid a b ↔
      t ∈ txs ∧ t.user_id = uid ∧ Date.le a t.date ∧ Date.lt t.date b := by
    intro a b
    unfold statement_transactions
    simp only [List.mem_filter, decide_eq_true_eq]
  have hidx : t ∈ index_transactions txs uid cs ↔
      t ∈ txs ∧ t.user_id = uid ∧ Date.le cs t.date := by
    unfold index_transactions
    simp only [List.mem_filter, decide_eq_true_eq]
  refine ⟨hstmt cs ncs, hidx, ?_, ?_⟩
  · intro heq hmem
    rw [hstmt cs ncs] at hmem
    rw [heq] at hmem
    exact Date.lt_irrefl ncs hmem.2.2.2
  · intro heq hin huid hlt
    rw [hstmt ncs ncs2]
    refine ⟨hin, huid, ?_, hlt⟩
    rw [heq]
    exact Date.le_refl ncs

/-- Witness for C4: a transaction dated exactly on the next cycle start
(2024-04-08) is excluded from the March statement and included in the
April one. -/
theorem statement_membership_witness :
    (⟨1, ⟨2024, 4, 8⟩, 0, 0, ""⟩ : TransactionRec) ∉
      statement_transactions [⟨1, ⟨2024, 4, 8⟩, 0, 0, ""⟩] 1
        ⟨2024, 3, 8⟩ ⟨2024, 4, 8⟩ ∧
    (⟨1, ⟨2024, 4, 8⟩, 0, 0, ""⟩ : TransactionRec) ∈
      statement_transactions [⟨1, ⟨2024, 4, 8⟩, 0, 0, ""⟩] 1
        ⟨2024, 4, 8⟩ ⟨2024, 5, 8⟩ :=
  ⟨(statement_membership [⟨1, ⟨2024, 4, 8⟩, 0, 0, ""⟩] 1 ⟨2024, 3, 8⟩
      ⟨2024, 4, 8⟩ ⟨2024, 5, 8⟩ ⟨1, ⟨2024, 4, 8⟩, 0, 0, ""⟩).2.2.1 rfl,
   (statement_membership [⟨1, ⟨2024, 4, 8⟩, 0, 0, ""⟩] 1 ⟨2024, 3, 8⟩
      ⟨2024, 4, 8⟩ ⟨2024, 5, 8⟩ ⟨1, ⟨2024, 4, 8⟩, 0, 0, ""⟩).2.2.2 rfl
      (by decide) rfl (by decide)⟩

/-- C5: the aggregator computes `total_spent` as the sum of the transaction
amounts and `remaining_balance` as the allocated credit minus
`total_spent`, with no clamping (it may go negative); for amounts
[100.50, 40.00] and allocation 1000 this gives 140.50 and 859.50. -/
theorem aggregation_sum_correct :
    (∀ (alloc : ℚ) (txs : List TransactionRec),
      total_spent txs = (txs.map TransactionRec.amount).sum ∧
      remaining_balance alloc txs = alloc - total_spent txs) ∧
    total_spent [⟨1, ⟨2024, 3, 10⟩, 0, 100.50, "a"⟩,
      ⟨1, ⟨2024, 3, 11⟩, 0, 40.00, "b"⟩] = 140.50 ∧
    remaining_balance 1000 [⟨1, ⟨2024, 3, 10⟩, 0, 100.50, "a"⟩,
      ⟨1, ⟨2024, 3, 11⟩, 0, 40.00, "b"⟩] = 859.50 ∧
    remaining_balance 100 [⟨1, ⟨2024, 3, 10⟩, 0, 100.50, "a"⟩,
      ⟨1, ⟨2024, 3, 11⟩, 0, 40.00, "b"⟩] < 0 := by
  refine ⟨fun alloc txs => ⟨rfl, rfl⟩, ?_, ?_, ?_⟩ <;>
    norm_num [total_spent, remaining_balance]

/-- Counterexample to C6 as stated: from the empty database, `register`
creates user 1 with a budget for the resolved cycle start (2024-03-08);
invoking `set_budget` for the same user in the same cycle — the route does
no duplicate check — yields two `MonthlyBudget` rows with the same
(user, cycle start), so not every operation preserves the invariant. -/
theorem budget_invariant_cex :
    BudgetInv (register ⟨2024, 3, 10⟩ ⟨[], [], []⟩ "alice" 1000 8 1) ∧
    (⟨1, "alice", 8⟩ : UserRec) ∈
      (register ⟨2024, 3, 10⟩ ⟨[], [], []⟩ "alice" 1000 8 1).users ∧
    ¬ BudgetInv (set_budget ⟨2024, 3, 10⟩
      (register ⟨2024, 3, 10⟩ ⟨[], [], []⟩ "alice" 1000 8 1)
      ⟨1, "alice", 8⟩ 1000) := by decide

/-- C6 (amended): `register` (with a fresh autoincrement id),
`add_transaction` and `update_profile` preserve the
at-most-one-allocation-per-(user, cycle-start) invariant; `set_budget`
preserves it only when no allocation row yet exists for the resolved cycle
start — it performs no duplicate check, so a second invocation within the
same cycle violates the invariant. -/
theorem budget_invariant_preservation (today : Date) (db : DBState)
    (u : UserRec) (salary amount : ℚ) (username descr : String)
    (bc newId timeNow : Int) (hinv : BudgetInv db) :
    BudgetInv (add_transaction today timeNow db u amount descr) ∧
    BudgetInv (update_profile db u bc) ∧
    ((∀ b ∈ db.budgets, b.user_id ≠ newId) →
      BudgetInv (register today db username salary bc newId)) ∧
    ((∀ cs, get_current_cycle_start u.salary_credit_day today = some cs →
        find_budget db.budgets u.id cs = none) →
      BudgetInv (set_budget today db u salary)) := by
  refine ⟨hinv, hinv, ?_, ?_⟩
  · intro hfresh
    unfold register
    by_cases hdup : db.users.any (fun v => decide (v.username = username))
    · rw [if_pos hdup]
      exact hinv
    · rw [if_neg hdup]
      cases hcs : get_current_cycle_start_entry today bc none with
      | none => exact hinv
      | some cs =>
        unfold BudgetInv
        dsimp only
        rw [List.map_cons, List.nodup_cons]
        refine ⟨?_, hinv⟩
        intro hmem
        obtain ⟨b, hb, hkey⟩ := List.mem_map.mp hmem
        exact hfresh b hb (congrArg Prod.fst hkey)
  · intro hnone
    unfold set_budget
    cases hcs : get_current_cycle_start_entry today u.salary_credit_day none with
    | none => exact hinv
    | some cs =>
      unfold BudgetInv
      dsimp only
      rw [List.map_cons, List.nodup_cons]
      refine ⟨?_, hinv⟩
      intro hmem
      obtain ⟨b, hb, hkey⟩ := List.mem_map.mp hmem
      have hfind := hnone cs hcs
      have := List.find?_eq_none.mp hfind b hb
      rw [decide_eq_true_eq] at this
      exact this ⟨congrArg Prod.fst hkey, congrArg Prod.snd hkey⟩

/-- Witness for C6 (amended): `set_budget` on a database with no budget
rows preserves the invariant. -/
theorem budget_invariant_preservation_witness :
    BudgetInv (set_budget ⟨2024, 3, 10⟩ ⟨[⟨1, "alice", 8⟩], [], []⟩
      ⟨1, "alice", 8⟩ 1000) :=
  (budget_invariant_preservation ⟨2024, 3, 10⟩ ⟨[⟨1, "alice", 8⟩], [], []⟩
    ⟨1, "alice", 8⟩ 1000 0 "x" "y" 8 2 0 (by decide)).2.2.2 (fun _ _ => rfl)

/-- With no query arguments, `download_statement`'s `if year and month:`
test is falsy and the route takes the resolved-current-cycle branch. -/
theorem download_statement_noargs (today : Date) (db : DBState) (u : UserRec) :
    download_statement today db u none none =
      match get_current_cycle_start_entry today u.salary_credit_day none with
      | none => none
      | some cycle_start =>
        match find_budget db.budgets u.id cycle_start with
        | none => some StatementOutcome.redirect_index
        | some budget => statement_body today db u cycle_start budget := rfl

/-- C7: when the user's cycle start resolves (the claim's premise speaks
of "the resolved cycle start") and no allocation row exists for it, the
home view redirects to `set_budget` and the statement download redirects
to `index` (which routes on to the corrective action) — neither fabricates
a zero-budget page/PDF nor raises. -/
theorem no_budget_redirects (today : Date) (db : DBState) (u : UserRec)
    (cs : Date)
    (hcs : get_current_cycle_start u.salary_credit_day today = some cs)
    (hfb : find_budget db.budgets u.id cs = none) :
    index_route today db u = some .redirect_set_budget ∧
    download_statement today db u none none = some .redirect_index := by
  have hentry : get_current_cycle_start_entry today u.salary_credit_day none =
      some cs := hcs
  unfold index_route
  rw [download_statement_noargs, hentry]
  dsimp only
  rw [hfb]
  exact ⟨rfl, rfl⟩

/-! ## Day-stepping lemmas for the 32-day offset (claim C3) -/

theorem addDays_add (dt : Date) (a b : Nat) :
    addDays dt (a + b) = (addDays dt a).bind (fun e => addDays e b) := by
  induction a generalizing dt with
  | zero =>
    rw [Nat.zero_add]
    rfl
  | succ n ih =>
    rw [Nat.succ_add]
    show (match nextDay dt with
      | none => none
      | some e => addDays e (n + b)) =
      (match nextDay dt with
        | none => none
        | some e => addDays e n).bind fun e => addDays e b
    cases hnd : nextDay dt with
    | none => rfl
    | some e => exact ih e

theorem addDays_within (n : Nat) (dt : Date) (h1 : 1 ≤ dt.day)
    (h2 : dt.day + (n : Int) ≤ daysInMonth dt.year dt.month) :
    addDays dt n = some ⟨dt.year, dt.month, dt.day + (n : Int)⟩ := by
  induction n generalizing dt with
  | zero =>
    show some dt = _
    obtain ⟨y, m, t⟩ := dt
    simp
  | succ n ih =>
    have hnext : nextDay dt = some ⟨dt.year, dt.month, dt.day + 1⟩ := by
      unfold nextDay
      rw [if_pos (by omega)]
    show (match nextDay dt with
      | none => none
      | some e => addDays e n) = _
    rw [hnext]
    show addDays ⟨dt.year, dt.month, dt.day + 1⟩ n = _
    rw [ih ⟨dt.year, dt.month, dt.day + 1⟩ (by dsimp only; omega)
      (by dsimp only; omega)]
    simp only [Option.some.injEq, Date.mk.injEq, true_and]
    omega

theorem monthSucc_range (y m : Int) (h1 : 1 ≤ m) (h2 : m ≤ 12) :
    1 ≤ (monthSucc (y, m)).2 ∧ (monthSucc (y, m)).2 ≤ 12 := by
  unfold monthSucc
  dsimp only
  split_ifs <;> dsimp only <;> omega

theorem monthSucc_cases (y m : Int) :
    (m = 12 ∧ monthSucc (y, m) = (y + 1, 1)) ∨
    (m ≠ 12 ∧ monthSucc (y, m) = (y, m + 1)) := by
  unfold monthSucc
  dsimp only
  by_cases hm : m = 12
  · left
    rw [if_pos hm]
    exact ⟨hm, rfl⟩
  · right
    rw [if_neg hm]
    exact ⟨hm, rfl⟩

theorem monthSucc_year_bounds (p : Int × Int) :
    p.1 ≤ (monthSucc p).1 ∧ (monthSucc p).1 ≤ p.1 + 1 := by
  obtain ⟨a, b⟩ := p
  unfold monthSucc
  dsimp only
  split_ifs <;> dsimp only <;> omega

theorem monthSucc_year_eq (p : Int × Int) (h : p.2 ≠ 12) :
    (monthSucc p).1 = p.1 := by
  obtain ⟨a, b⟩ := p
  dsimp only at h
  unfold monthSucc
  dsimp only
  rw [if_neg h]

/-- Stepping one day past the last day of a month lands on the first of
the successor month, provided December 9999 is not crossed (there,
`nextDay` overflows instead). -/
theorem nextDay_eom (dt : Date) (hm2 : dt.month ≤ 12)
    (hy : dt.month = 12 → dt.year ≤ 9998)
    (h : dt.day = daysInMonth dt.year dt.month) :
    nextDay dt = some ⟨(monthSucc (dt.year, dt.month)).1,
      (monthSucc (dt.year, dt.month)).2, 1⟩ := by
  have hlt : ¬ dt.day < daysInMonth dt.year dt.month := by omega
  unfold nextDay monthSucc
  dsimp only
  rw [if_neg hlt]
  by_cases hm : dt.month = 12
  · have ha : ¬ dt.month < 12 := by omega
    have hb : dt.year < 9999 := by
      have := hy hm
      omega
    rw [if_neg ha, if_pos hb, if_pos hm]
  · have ha : dt.month < 12 := by omega
    rw [if_pos ha, if_neg hm]

/-- Adding more days than remain in December 9999 overflows `date.max`:
the model of the `OverflowError` raised by `date + timedelta`. -/
theorem addDays_through_end_none (dt : Date) (n : Nat) (h1 : 1 ≤ dt.day)
    (h2 : dt.day ≤ daysInMonth dt.year dt.month) (hm : dt.month = 12)
    (hy : dt.year = 9999)
    (hn : daysInMonth dt.year dt.month - dt.day < (n : Int)) :
    addDays dt n = none := by
  obtain ⟨ty, tm, td⟩ := dt
  dsimp only at h1 h2 hm hy hn
  subst hm
  subst hy
  rw [daysInMonth_def_12] at h2 hn
  have ha : addDays ⟨(9999 : Int), 12, td⟩ (31 - td).toNat =
      some ⟨9999, 12, 31⟩ := by
    rw [addDays_within _ _ (by dsimp only; omega)
      (by dsimp only; rw [daysInMonth_def_12]; omega)]
    dsimp only
    simp only [Option.some.injEq, Date.mk.injEq, true_and]
    omega
  have hend : nextDay ⟨(9999 : Int), 12, 31⟩ = none := by decide
  obtain ⟨k, hk⟩ : ∃ k, n = (31 - td).toNat + (k + 1) :=
    ⟨n - (31 - td).toNat - 1, by omega⟩
  rw [hk, addDays_add, ha]
  show (match nextDay ⟨(9999 : Int), 12, 31⟩ with
    | none => none
    | some e => addDays e k) = none
  rw [hend]

/-- Where `s + 32 days` lands whenever it is representable at all: in the
following month at day `s.day + 32 - L` when that fits (`L` the length of
`s`'s month), and otherwise in the month after that (the offset
overshoots); the month reached is within the calendar's year range. -/
theorem addDays_32 (y m t : Int) (w : Date) (hv : (⟨y, m, t⟩ : Date).Valid)
    (hw : addDays ⟨y, m, t⟩ 32 = some w) :
    (1 ≤ (monthSucc (y, m)).1 ∧ (monthSucc (y, m)).1 ≤ 9999 ∧
      t + 32 - daysInMonth y m ≤
        daysInMonth (monthSucc (y, m)).1 (monthSucc (y, m)).2 ∧
      w = ⟨(monthSucc (y, m)).1, (monthSucc (y, m)).2,
        t + 32 - daysInMonth y m⟩) ∨
    (1 ≤ (monthSucc (y, m)).1 ∧ (monthSucc (y, m)).1 ≤ 9999 ∧
      1 ≤ (monthSucc (monthSucc (y, m))).1 ∧
      (monthSucc (monthSucc (y, m))).1 ≤ 9999 ∧
      daysInMonth (monthSucc (y, m)).1 (monthSucc (y, m)).2 <
        t + 32 - daysInMonth y m ∧
      w = ⟨(monthSucc (monthSucc (y, m))).1, (monthSucc (monthSucc (y, m))).2,
        t + 32 - daysInMonth y m -
          daysInMonth (monthSucc (y, m)).1 (monthSucc (y, m)).2⟩) := by
  obtain ⟨hy1, hy2, hm1, hm2, ht1, ht2⟩ := hv
  dsimp only at hy1 hy2 hm1 hm2 ht1 ht2
  have hbL := daysInMonth_bounds y m
  have hbL1 := daysInMonth_bounds (monthSucc (y, m)).1 (monthSucc (y, m)).2
  have hbL2 := daysInMonth_bounds (monthSucc (monthSucc (y, m))).1
    (monthSucc (monthSucc (y, m))).2
  have hms := monthSucc_range y m hm1 hm2
  have hP : (m = 12 ∧ (monthSucc (y, m)).1 = y + 1 ∧ (monthSucc (y, m)).2 = 1) ∨
      (m ≠ 12 ∧ (monthSucc (y, m)).1 = y ∧ (monthSucc (y, m)).2 = m + 1) := by
    rcases monthSucc_cases y m with ⟨hm12, heq⟩ | ⟨hm12, heq⟩
    · exact Or.inl ⟨hm12, by rw [heq], by rw [heq]⟩
    · exact Or.inr ⟨hm12, by rw [heq], by rw [heq]⟩
  have hm12y : m = 12 → y ≤ 9998 := by
    intro h12
    by_contra hc
    have hnone := addDays_through_end_none ⟨y, m, t⟩ 32 (by dsimp only; omega)
      (by dsimp only; omega) (by dsimp only; omega) (by dsimp only; omega)
      (by dsimp only; omega)
    rw [hnone] at hw
    exact Option.noConfusion hw
  have hPy1 : 1 ≤ (monthSucc (y, m)).1 := by
    rcases hP with ⟨h12, e1, e2⟩ | ⟨h12, e1, e2⟩ <;> omega
  have hPy2 : (monthSucc (y, m)).1 ≤ 9999 := by
    rcases hP with ⟨h12, e1, e2⟩ | ⟨h12, e1, e2⟩
    · have := hm12y h12
      omega
    · omega
  have ha : addDays ⟨y, m, t⟩ (daysInMonth y m - t).toNat =
      some ⟨y, m, daysInMonth y m⟩ := by
    rw [addDays_within _ _ (by dsimp only; omega) (by dsimp only; omega)]
    dsimp only
    simp only [Option.some.injEq, Date.mk.injEq, true_and]
    omega
  have hb : addDays ⟨y, m, t⟩ ((daysInMonth y m - t).toNat + 1) =
      some ⟨(monthSucc (y, m)).1, (monthSucc (y, m)).2, 1⟩ := by
    rw [addDays_add, ha]
    show addDays ⟨y, m, daysInMonth y m⟩ 1 = _
    have hnd : nextDay ⟨y, m, daysInMonth y m⟩ =
        some ⟨(monthSucc (y, m)).1, (monthSucc (y, m)).2, 1⟩ :=
      nextDay_eom ⟨y, m, daysInMonth y m⟩ (by dsimp only; omega)
        (fun h12 => by dsimp only at h12 ⊢; exact hm12y h12) (by dsimp only)
    show (match nextDay ⟨y, m, daysInMonth y m⟩ with
      | none => none
      | some e => addDays e 0) = _
    rw [hnd]
    rfl
  have h32 : (32 : Nat) = ((daysInMonth y m - t).toNat + 1) +
      (31 - (daysInMonth y m - t).toNat) := by omega
  rw [h32, addDays_add, hb] at hw
  have hw' : addDays ⟨(monthSucc (y, m)).1, (monthSucc (y, m)).2, 1⟩
      (31 - (daysInMonth y m - t).toNat) = some w := hw
  by_cases hcase : t + 32 - daysInMonth y m ≤
      daysInMonth (monthSucc (y, m)).1 (monthSucc (y, m)).2
  · left
    refine ⟨hPy1, hPy2, hcase, ?_⟩
    rw [addDays_within _ _ (by dsimp only; omega) (by dsimp only; omega)] at hw'
    dsimp only at hw'
    simp only [Option.some.injEq] at hw'
    rw [← hw']
    simp only [Date.mk.injEq, true_and]
    omega
  · right
    have hy11 : (monthSucc (y, m)).2 = 12 → (monthSucc (y, m)).1 ≤ 9998 := by
      intro h12
      rcases hP with ⟨hm12, e1, e2⟩ | ⟨hm12, e1, e2⟩
      · omega
      · by_contra hc
        have hnone := addDays_through_end_none
          ⟨(monthSucc (y, m)).1, (monthSucc (y, m)).2, 1⟩
          (31 - (daysInMonth y m - t).toNat) (by dsimp only; omega)
          (by dsimp only; omega) (by dsimp only; exact h12)
          (by dsimp only; omega) (by dsimp only; omega)
        rw [hnone] at hw'
        exact Option.noConfusion hw'
    have hyB := monthSucc_year_bounds (monthSucc (y, m))
    have hPP2 : (monthSucc (monthSucc (y, m))).1 ≤ 9999 := by
      by_cases hc12 : (monthSucc (y, m)).2 = 12
      · have := hy11 hc12
        omega
      · rw [monthSucc_year_eq (monthSucc (y, m)) hc12]
        exact hPy2
    have hPP1 : 1 ≤ (monthSucc (monthSucc (y, m))).1 := by omega
    have hr2 : (31 - (daysInMonth y m - t).toNat) =
        ((daysInMonth (monthSucc (y, m)).1 (monthSucc (y, m)).2 - 1).toNat + 1) +
        (31 - (daysInMonth y m - t).toNat -
          (daysInMonth (monthSucc (y, m)).1 (monthSucc (y, m)).2).toNat) := by
      omega
    have hfirst2 : addDays ⟨(monthSucc (y, m)).1, (monthSucc (y, m)).2, 1⟩
        ((daysInMonth (monthSucc (y, m)).1 (monthSucc (y, m)).2 - 1).toNat + 1) =
        some ⟨(monthSucc (monthSucc (y, m))).1,
          (monthSucc (monthSucc (y, m))).2, 1⟩ := by
      rw [addDays_add,
        addDays_within _ _ (by dsimp only; omega) (by dsimp only; omega)]
      show addDays ⟨(monthSucc (y, m)).1, (monthSucc (y, m)).2,
        1 + ((daysInMonth (monthSucc (y, m)).1 (monthSucc (y, m)).2 -
          1).toNat : Int)⟩ 1 = _
      have hXeq : (⟨(monthSucc (y, m)).1, (monthSucc (y, m)).2,
          1 + ((daysInMonth (monthSucc (y, m)).1 (monthSucc (y, m)).2 -
            1).toNat : Int)⟩ : Date) =
          ⟨(monthSucc (y, m)).1, (monthSucc (y, m)).2,
            daysInMonth (monthSucc (y, m)).1 (monthSucc (y, m)).2⟩ := by
        simp only [Date.mk.injEq, true_and]
        omega
      rw [hXeq]
      have hnd2 : nextDay ⟨(monthSucc (y, m)).1, (monthSucc (y, m)).2,
          daysInMonth (monthSucc (y, m)).1 (monthSucc (y, m)).2⟩ =
          some ⟨(monthSucc (monthSucc (y, m))).1,
            (monthSucc (monthSucc (y, m))).2, 1⟩ :=
        nextDay_eom ⟨(monthSucc (y, m)).1, (monthSucc (y, m)).2,
            daysInMonth (monthSucc (y, m)).1 (monthSucc (y, m)).2⟩
          (by dsimp only; omega)
          (fun h12 => by dsimp only at h12 ⊢; exact hy11 h12) (by dsimp only)
      show (match nextDay ⟨(monthSucc (y, m)).1, (monthSucc (y, m)).2,
        daysInMonth (monthSucc (y, m)).1 (monthSucc (y, m)).2⟩ with
        | none => none
        | some e => addDays e 0) = _
      rw [hnd2]
      rfl
    rw [hr2, addDays_add, hfirst2] at hw'
    have hw2 : addDays ⟨(monthSucc (monthSucc (y, m))).1,
        (monthSucc (monthSucc (y, m))).2, 1⟩
        (31 - (daysInMonth y m - t).toNat -
          (daysInMonth (monthSucc (y, m)).1 (monthSucc (y, m)).2).toNat) =
        some w := hw'
    rw [addDays_within _ _ (by dsimp only; omega) (by dsimp only; omega)] at hw2
    dsimp only at hw2
    simp only [Option.some.injEq] at hw2
    refine ⟨hPy1, hPy2, hPP1, hPP2, by omega, ?_⟩
    rw [← hw2]
    simp only [Date.mk.injEq, true_and]
    omega

/-- Resolving inside the month following `(y1, m1)`, at a day strictly
below that month's clamped anchor, steps back to `(y1, m1)`'s clamped
anchor date. -/
theorem gccs_prev_step (d y1 m1 y2 m2 : Int) (hm1 : 1 ≤ m1) (hm2 : m1 ≤ 12)
    (hya : 1 ≤ y1) (hyb : y2 ≤ 9999) (hd : 1 ≤ d)
    (hsucc : monthSucc (y1, m1) = (y2, m2)) (j : Int)
    (hj1 : 1 ≤ j) (hj2 : j ≤ daysInMonth y2 m2)
    (hlt : j < min d (daysInMonth y2 m2)) :
    get_current_cycle_start d ⟨y2, m2, j⟩ =
      some ⟨y1, m1, min d (daysInMonth y1 m1)⟩ := by
  rcases monthSucc_cases y1 m1 with ⟨hm, heq⟩ | ⟨hm, heq⟩ <;>
    rw [heq] at hsucc <;>
    simp only [Prod.mk.injEq] at hsucc <;>
    obtain ⟨hy2, hm2'⟩ := hsucc
  · subst hy2
    subst hm2'
    subst hm
    have hvx : (⟨y1 + 1, 1, j⟩ : Date).Valid := by
      unfold Date.Valid
      dsimp only
      omega
    rw [gccs_eq d _ hvx hd]
    dsimp only
    have hna : ¬ min d (daysInMonth (y1 + 1) 1) ≤ j := by omega
    have hna2 : ¬ (1 : Int) < 1 := by norm_num
    have hposy : (1 : Int) < y1 + 1 := by omega
    rw [if_neg hna, if_neg hna2, if_pos hposy]
    simp only [Option.some.injEq, Date.mk.injEq]
    refine ⟨by omega, trivial, by rw [daysInMonth_def_12]⟩
  · subst hy2
    subst hm2'
    have hvx : (⟨y1, m1 + 1, j⟩ : Date).Valid := by
      unfold Date.Valid
      dsimp only
      omega
    rw [gccs_eq d _ hvx hd]
    dsimp only
    have hna : ¬ min d (daysInMonth y1 (m1 + 1)) ≤ j := by omega
    have hpos : (1 : Int) < m1 + 1 := by omega
    rw [if_neg hna, if_pos hpos]
    have hmm : m1 + 1 - 1 = m1 := by ring
    rw [hmm]

/-- Counterexample to C3 as stated: for anchor 31 and the cycle start
2023-01-31 (a fixed point of the resolver), the 32-day offset lands on
2023-03-04 — in the month after the following month, not in the following
month (February) as the claim asserts; moreover, for anchor 8 the date
9999-12-08 is a cycle start from which `cycle_start + timedelta(days=32)`
(app.py line 244) overflows `date.max` and raises `OverflowError`, so the
claim's computation does not even produce a date there. -/
theorem next_cycle_32day_cex :
    get_current_cycle_start 31 ⟨2023, 1, 31⟩ = some ⟨2023, 1, 31⟩ ∧
    addDays ⟨2023, 1, 31⟩ 32 = some ⟨2023, 3, 4⟩ ∧
    (monthSucc (2023, 1)).2 = 2 ∧
    (3 : Int) ≠ (monthSucc (2023, 1)).2 ∧
    get_current_cycle_start 8 ⟨9999, 12, 8⟩ = some ⟨9999, 12, 8⟩ ∧
    addDays ⟨9999, 12, 8⟩ 32 = none := by decide

/-- C3 (amended): for every anchor day `d` in 1..31 and every cycle start
`s` (a valid fixed point of the resolver), whenever the 32-day offset is
representable at all (`s + timedelta(days=32)` raises `OverflowError` from
cycle starts at the very end of year 9999), it lands in the month
following `s`'s or in the one after that (it can overshoot, e.g. anchor 31
from Jan 31 lands on Mar 4); in either case the resolver applied to it
returns the start of the immediately next cycle — the following month's
clamped anchor date — which is strictly after `s`, is itself a cycle
start, and every valid date from `s` up to (but excluding) it resolves to
`s`, so consecutive cycles neither skip nor duplicate any date. -/
theorem next_cycle_computation (d : Int) (s w : Date) (hd1 : 1 ≤ d)
    (hd2 : d ≤ 31) (hv : s.Valid)
    (hfix : get_current_cycle_start d s = some s)
    (hw : addDays s 32 = some w) :
    get_current_cycle_start d w = some (nextCycleSpec d s) ∧
    ((w.year, w.month) = monthSucc (s.year, s.month) ∨
      (w.year, w.month) = monthSucc (monthSucc (s.year, s.month))) ∧
    Date.lt s (nextCycleSpec d s) ∧
    get_current_cycle_start d (nextCycleSpec d s) =
      some (nextCycleSpec d s) ∧
    (∀ x : Date, x.Valid → Date.le s x → Date.lt x (nextCycleSpec d s) →
      get_current_cycle_start d x = some s) := by
  have ht := gccs_fixed_day d s hv hd1 hfix
  have hv2 := hv
  obtain ⟨y, m, t⟩ := s
  obtain ⟨hy1, hy2, hm1, hm2, ht1, ht2⟩ := hv2
  dsimp only at hy1 hy2 hm1 hm2 ht1 ht2 ht
  have hbL := daysInMonth_bounds y m
  have hbL1 := daysInMonth_bounds (monthSucc (y, m)).1 (monthSucc (y, m)).2
  have hbL2 := daysInMonth_bounds (monthSucc (monthSucc (y, m))).1
    (monthSucc (monthSucc (y, m))).2
  have hms := monthSucc_range y m hm1 hm2
  have hP : (m = 12 ∧ (monthSucc (y, m)).1 = y + 1 ∧ (monthSucc (y, m)).2 = 1) ∨
      (m ≠ 12 ∧ (monthSucc (y, m)).1 = y ∧ (monthSucc (y, m)).2 = m + 1) := by
    rcases monthSucc_cases y m with ⟨hm12, heq⟩ | ⟨hm12, heq⟩
    · exact Or.inl ⟨hm12, by rw [heq], by rw [heq]⟩
    · exact Or.inr ⟨hm12, by rw [heq], by rw [heq]⟩
  have hadd := addDays_32 y m t w hv hw
  have hPb : 1 ≤ (monthSucc (y, m)).1 ∧ (monthSucc (y, m)).1 ≤ 9999 := by
    rcases hadd with ⟨a1, a2, _, _⟩ | ⟨a1, a2, _, _, _, _⟩ <;> exact ⟨a1, a2⟩
  have hvN : (⟨(monthSucc (y, m)).1, (monthSucc (y, m)).2,
      min d (daysInMonth (monthSucc (y, m)).1 (monthSucc (y, m)).2)⟩ :
      Date).Valid := by
    unfold Date.Valid
    dsimp only
    omega
  have hg1 : get_current_cycle_start d w =
      some ⟨(monthSucc (y, m)).1, (monthSucc (y, m)).2,
        min d (daysInMonth (monthSucc (y, m)).1 (monthSucc (y, m)).2)⟩ := by
    rcases hadd with ⟨_, _, hfit, hland⟩ | ⟨_, _, hPP1, hPP2, hover, hland⟩
    · subst hland
      have hvland : (⟨(monthSucc (y, m)).1, (monthSucc (y, m)).2,
          t + 32 - daysInMonth y m⟩ : Date).Valid := by
        unfold Date.Valid
        dsimp only
        omega
      rw [gccs_eq d _ hvland hd1]
      dsimp only
      have hge : min d (daysInMonth (monthSucc (y, m)).1 (monthSucc (y, m)).2) ≤
          t + 32 - daysInMonth y m := by omega
      rw [if_pos hge]
    · subst hland
      exact gccs_prev_step d (monthSucc (y, m)).1 (monthSucc (y, m)).2
        (monthSucc (monthSucc (y, m))).1 (monthSucc (monthSucc (y, m))).2
        hms.1 hms.2 (by omega) hPP2 hd1 rfl _ (by omega) (by omega) (by omega)
  have hg2 : Date.lt ⟨y, m, t⟩ ⟨(monthSucc (y, m)).1, (monthSucc (y, m)).2,
      min d (daysInMonth (monthSucc (y, m)).1 (monthSucc (y, m)).2)⟩ := by
    rw [Date.lt_def]
    dsimp only
    omega
  have hg3 : get_current_cycle_start d
      ⟨(monthSucc (y, m)).1, (monthSucc (y, m)).2,
        min d (daysInMonth (monthSucc (y, m)).1 (monthSucc (y, m)).2)⟩ =
      some ⟨(monthSucc (y, m)).1, (monthSucc (y, m)).2,
        min d (daysInMonth (monthSucc (y, m)).1 (monthSucc (y, m)).2)⟩ :=
    gccs_fixed d _ hvN hd1 (by dsimp only)
  have hg4 : ∀ x : Date, x.Valid → Date.le ⟨y, m, t⟩ x →
      Date.lt x ⟨(monthSucc (y, m)).1, (monthSucc (y, m)).2,
        min d (daysInMonth (monthSucc (y, m)).1 (monthSucc (y, m)).2)⟩ →
      get_current_cycle_start d x = some ⟨y, m, t⟩ := by
    intro x hxv hle hlt
    have hxv2 := hxv
    obtain ⟨xy, xm, xd⟩ := x
    obtain ⟨hxy1, hxy2, hxm1, hxm2, hxd1, hxd2⟩ := hxv
    dsimp only at hxy1 hxy2 hxm1 hxm2 hxd1 hxd2
    rw [Date.le_def] at hle
    rw [Date.lt_def] at hlt
    dsimp only at hle hlt
    have hcases : (xy = y ∧ xm = m ∧ t ≤ xd) ∨
        (xy = (monthSucc (y, m)).1 ∧ xm = (monthSucc (y, m)).2 ∧
          xd < min d (daysInMonth (monthSucc (y, m)).1 (monthSucc (y, m)).2)) := by
      omega
    rcases hcases with ⟨h1, h2, h3⟩ | ⟨h1, h2, h3⟩
    · rw [gccs_eq d _ hxv2 hd1]
      dsimp only
      have hge : min d (daysInMonth xy xm) ≤ xd := by
        rw [h1, h2]
        omega
      rw [if_pos hge]
      simp only [Option.some.injEq, Date.mk.injEq]
      refine ⟨h1, h2, ?_⟩
      rw [h1, h2]
      omega
    · have hsucc2 : monthSucc (y, m) = (xy, xm) := by rw [h1, h2]
      rw [← h1, ← h2] at h3
      have happ := gccs_prev_step d y m xy xm hm1 hm2 hy1 hxy2 hd1 hsucc2 xd
        hxd1 hxd2 h3
      rw [happ]
      simp only [Option.some.injEq, Date.mk.injEq, true_and]
      omega
  have hg5 : ((w.year, w.month) = monthSucc (y, m) ∨
      (w.year, w.month) = monthSucc (monthSucc (y, m))) := by
    rcases hadd with ⟨_, _, _, hland⟩ | ⟨_, _, _, _, _, hland⟩
    · left
      rw [hland]
    · right
      rw [hland]
  exact ⟨hg1, hg5, hg2, hg3, hg4⟩

/-- Witness for C3 (amended) at anchor 31, cycle start 2023-01-31: the
overshooting case (+32 days = 2023-03-04); the in-between date 2023-02-10
resolves back to the start. -/
theorem next_cycle_computation_witness :
    get_current_cycle_start 31 ⟨2023, 3, 4⟩ =
      some (nextCycleSpec 31 ⟨2023, 1, 31⟩) ∧
    Date.lt ⟨2023, 1, 31⟩ (nextCycleSpec 31 ⟨2023, 1, 31⟩) ∧
    get_current_cycle_start 31 ⟨2023, 2, 10⟩ = some ⟨2023, 1, 31⟩ :=
  ⟨(next_cycle_computation 31 ⟨2023, 1, 31⟩ ⟨2023, 3, 4⟩ (by decide) (by decide)
      (by decide) (by decide) (by decide)).1,
   (next_cycle_computation 31 ⟨2023, 1, 31⟩ ⟨2023, 3, 4⟩ (by decide) (by decide)
      (by decide) (by decide) (by decide)).2.2.1,
   (next_cycle_computation 31 ⟨2023, 1, 31⟩ ⟨2023, 3, 4⟩ (by decide) (by decide)
      (by decide) (by decide) (by decide)).2.2.2.2 ⟨2023, 2, 10⟩ (by decide)
      (by decide) (by decide)⟩

/-- Witness for C7: on the empty database the home view and statement
download both redirect. -/
theorem no_budget_redirects_witness :
    index_route ⟨2024, 3, 5⟩ ⟨[], [], []⟩ ⟨1, "alice", 8⟩ =
      some .redirect_set_budget ∧
    download_statement ⟨2024, 3, 5⟩ ⟨[], [], []⟩ ⟨1, "alice", 8⟩ none none =
      some .redirect_index :=
  no_budget_redirects ⟨2024, 3, 5⟩ ⟨[], [], []⟩ ⟨1, "alice", 8⟩ ⟨2024, 2, 8⟩
    (by decide) rfl
